import Mathlib

/-!
Shallow embedding of `src/blocks/io/rf/soapysdr.rs` (the `SoapySdrRx`
block of the radiorust crate): the Idle/Active/Invalid lifecycle state
machine guarding the device stream handle, the blocking worker loop, and
the `activate`/`deactivate` entry points.

The external world (the SoapySDR device, the distribution sink, the
cancellation watch channel) is modelled as a deterministic oracle `Env`:
each blocking device call and each per-iteration observation is a field
of the oracle, so one `Env` value fixes one complete execution.  The
worker loop is given fuel; `none` means the loop has not terminated
within the fuel, mirroring a worker thread that is still running.
-/

deriving instance DecidableEq for Except

namespace RadioRust

/-- Model of `soapysdr::Error` (only its identity matters here). -/
structure SdrError where
  message : String
deriving DecidableEq, Repr

/-- Model of `Complex<f32>` samples; the adapter never computes with
sample values, so exact rationals stand in for the two `f32` fields. -/
structure Complex32 where
  re : Rat
  im : Rat
deriving DecidableEq, Repr

/-- Default sample value (`Default::default()`), used by `resize_with`. -/
def Complex32.zero : Complex32 := ⟨0, 0⟩

/-- Outcome of one `rx_stream.read` call: the device writes `data` into
the front of the supplied buffer and reports `count` samples, or fails. -/
inductive ReadResult where
  | ok (count : Nat) (data : List Complex32)
  | err (e : SdrError)
deriving DecidableEq, Repr

/-- Oracle for everything outside the adapter: results of the blocking
device calls (`mtu`, `activate`, `read`, `deactivate`), the value of
`abort_recv.has_changed().unwrap_or(true)` observed at each loop
iteration, and whether the sink send at each iteration reports closed. -/
structure Env where
  mtuResult : Except SdrError Nat
  activateResult : Except SdrError Unit
  reads : Nat → ReadResult
  deactivateResult : Except SdrError Unit
  cancelObserved : Nat → Bool
  sinkClosed : Nat → Bool

/-- Model of `Signal::Samples`, the message sent to the distribution sink. -/
inductive Signal where
  | Samples (sample_rate : Rat) (chunk : List Complex32)
deriving DecidableEq, Repr

/-- Observable actions of the worker thread, in program order. -/
inductive Event where
  | checkCancel (i : Nat)
  | readCall (i : Nat)
  | sendCall (i : Nat)
  | deactivateCall
deriving DecidableEq, Repr

/-- Why the worker loop stopped iterating. -/
inductive LoopExit where
  | cancelled
  | readErr (e : SdrError)
  | sinkClosed
deriving DecidableEq, Repr

/-- The device writing `data` into the front of `buf` (a read never
changes the buffer's length). -/
def writeInto (buf data : List Complex32) : List Complex32 :=
  data.take buf.length ++ buf.drop data.length

/-- The chunk built by one loop iteration: `buffer.resize_with(mtu,
Default::default)`, the device read writing `data`, then
`buffer.truncate(count)`. -/
def mkChunk (mtu count : Nat) (data : List Complex32) : List Complex32 :=
  (writeInto (List.replicate mtu Complex32.zero) data).take count

/-- The `while !abort_recv.has_changed().unwrap_or(true)` loop of the
worker closure (soapysdr.rs lines 102-118).  Returns the event trace,
the list of messages the sink accepted, and the exit reason; `none`
means the loop is still running after `fuel` iterations. -/
def runWorkerLoop (env : Env) (mtu : Nat) (sample_rate : Rat) :
    Nat → Nat → Option (List Event × List Signal × LoopExit)
  | 0, _ => none
  | fuel + 1, i =>
    if env.cancelObserved i then
      some ([Event.checkCancel i], [], LoopExit.cancelled)
    else
      match env.reads i with
      | ReadResult.err e =>
        some ([Event.checkCancel i, Event.readCall i], [], LoopExit.readErr e)
      | ReadResult.ok count data =>
        if env.sinkClosed i then
          some ([Event.checkCancel i, Event.readCall i, Event.sendCall i], [],
            LoopExit.sinkClosed)
        else
          match runWorkerLoop env mtu sample_rate fuel (i + 1) with
          | none => none
          | some (tr, sent, ex) =>
            some (Event.checkCancel i :: Event.readCall i :: Event.sendCall i :: tr,
              Signal.Samples sample_rate (mkChunk mtu count data) :: sent, ex)

/-- Model of `SoapySdrRxRetval`: the reclaimed stream handle (a sentinel
token) plus the worker's terminal result. -/
structure SoapySdrRxRetval where
  rx_stream : Nat
  result : Except SdrError Unit
deriving DecidableEq, Repr

/-- Everything observable about one finished worker-thread run. -/
structure WorkerOutcome where
  retval : SoapySdrRxRetval
  sent : List Signal
  trace : List Event
  exit : LoopExit
deriving DecidableEq, Repr

/-- The whole worker closure (soapysdr.rs lines 99-125): run the loop,
then call `rx_stream.deactivate(None)` once, letting an earlier read
error take precedence over a deactivate error. -/
def runWorker (env : Env) (mtu : Nat) (sample_rate : Rat) (rx_stream : Nat)
    (fuel : Nat) : Option WorkerOutcome :=
  match runWorkerLoop env mtu sample_rate fuel 0 with
  | none => none
  | some (tr, sent, ex) =>
    let result : Except SdrError Unit :=
      match ex with
      | LoopExit.readErr e => Except.error e
      | _ => Except.ok ()
    let result : Except SdrError Unit :=
      match env.deactivateResult with
      | Except.error err =>
        match result with
        | Except.ok _ => Except.error err
        | r => r
      | Except.ok _ => result
    some { retval := ⟨rx_stream, result⟩, sent := sent,
           trace := tr ++ [Event.deactivateCall], exit := ex }

/-- Model of `SoapySdrRxActive`: what the `Active` state owns.  The
oracle and mtu fix the worker thread's run; `rx_stream` is the handle
that was moved into the worker. -/
structure SoapySdrRxActive where
  env : Env
  mtu : Nat
  rx_stream : Nat

/-- Model of `SoapySdrRxState`. -/
inductive SoapySdrRxState where
  | Active (x : SoapySdrRxActive)
  | Idle (rx_stream : Nat)
  | Invalid

/-- Model of the `SoapySdrRx` block (sender plumbing is part of the
oracle, so only the sample rate and the guarded state remain). -/
structure SoapySdrRx where
  sample_rate : Rat
  state : SoapySdrRxState

/-- Result of one `activate` or `deactivate` call: `panic` is the
`panic!("invalid state in SoapySdrRx")` branch, `blocked` means the call
is still waiting for the worker thread to exit, and `done` carries the
state written back under the lock, the returned `Result`, and whether a
worker thread was spawned by this call. -/
inductive CallOutcome where
  | panic
  | blocked
  | done (state : SoapySdrRxState) (ret : Except SdrError Unit) (spawned : Bool)

/-- Model of `SoapySdrRx::new`: starts Idle, holding the handle. -/
def SoapySdrRx.new (rx_stream : Nat) (sample_rate : Rat) : SoapySdrRx :=
  ⟨sample_rate, SoapySdrRxState.Idle rx_stream⟩

/-- Model of `SoapySdrRx::activate` (soapysdr.rs lines 66-133). -/
def SoapySdrRx.activate (env : Env) (rx : SoapySdrRx) : CallOutcome :=
  match rx.state with
  | SoapySdrRxState.Invalid => CallOutcome.panic
  | SoapySdrRxState.Active x =>
    CallOutcome.done (SoapySdrRxState.Active x) (Except.ok ()) false
  | SoapySdrRxState.Idle rx_stream =>
    match env.mtuResult with
    | Except.error err =>
      CallOutcome.done (SoapySdrRxState.Idle rx_stream) (Except.error err) false
    | Except.ok mtu =>
      match env.activateResult with
      | Except.error err =>
        CallOutcome.done (SoapySdrRxState.Idle rx_stream) (Except.error err) false
      | Except.ok _ =>
        CallOutcome.done (SoapySdrRxState.Active ⟨env, mtu, rx_stream⟩)
          (Except.ok ()) true

/-- Model of `SoapySdrRx::deactivate` (soapysdr.rs lines 135-153): on `Active`,
drop the abort sender and join the worker; `fuel` bounds how many loop
iterations the join is willing to wait through. -/
def SoapySdrRx.deactivate (fuel : Nat) (rx : SoapySdrRx) : CallOutcome :=
  match rx.state with
  | SoapySdrRxState.Invalid => CallOutcome.panic
  | SoapySdrRxState.Idle x =>
    CallOutcome.done (SoapySdrRxState.Idle x) (Except.ok ()) false
  | SoapySdrRxState.Active a =>
    match runWorker a.env a.mtu rx.sample_rate a.rx_stream fuel with
    | none => CallOutcome.blocked
    | some o =>
      CallOutcome.done (SoapySdrRxState.Idle o.retval.rx_stream)
        o.retval.result false

/-- One external call in a lifecycle history, with its own oracle. -/
inductive Call where
  | activateCall (env : Env)
  | deactivateCall (fuel : Nat)

/-- Run one call against the block. -/
def stepCall (sample_rate : Rat) (c : Call) (st : SoapySdrRxState) : CallOutcome :=
  match c with
  | Call.activateCall env => SoapySdrRx.activate env ⟨sample_rate, st⟩
  | Call.deactivateCall fuel => SoapySdrRx.deactivate fuel ⟨sample_rate, st⟩

/-- Result of running a whole call history. -/
inductive RunResult where
  | ok (st : SoapySdrRxState)
  | panicked
  | blocked

/-- Run a history of `activate`/`deactivate` calls (each with its own
oracle, so failing calls are included), threading the state. -/
def runCalls (sample_rate : Rat) : List Call → SoapySdrRxState → RunResult
  | [], st => RunResult.ok st
  | c :: cs, st =>
    match stepCall sample_rate c st with
    | CallOutcome.panic => RunResult.panicked
    | CallOutcome.blocked => RunResult.blocked
    | CallOutcome.done st2 _ _ => runCalls sample_rate cs st2

/-- Where the device stream handle currently lives: with the lifecycle
state when Idle, with the worker thread when Active, nowhere if Invalid. -/
def handleOf : SoapySdrRxState → Option Nat
  | SoapySdrRxState.Idle h => some h
  | SoapySdrRxState.Active a => some a.rx_stream
  | SoapySdrRxState.Invalid => none

/-- Number of owners of the handle in a given state: the Idle slot and
the worker thread each count as one candidate owner. -/
def ownerCount : SoapySdrRxState → Nat
  | SoapySdrRxState.Idle _ => 1
  | SoapySdrRxState.Active _ => 1
  | SoapySdrRxState.Invalid => 0

/-- Whether a call left `Invalid` behind in the state slot. -/
def leavesInvalid : CallOutcome → Bool
  | CallOutcome.done SoapySdrRxState.Invalid _ _ => true
  | _ => false

/-- Whether a call history hit the `panic!` branch. -/
def RunResult.isPanicked : RunResult → Bool
  | RunResult.panicked => true
  | _ => false

/-- The iteration index an event belongs to. -/
def evIndex : Event → Option Nat
  | Event.checkCancel i => some i
  | Event.readCall i => some i
  | Event.sendCall i => some i
  | Event.deactivateCall => none

/-! ### Helper lemmas -/

theorem writeInto_length (buf data : List Complex32) :
    (writeInto buf data).length = buf.length := by
  simp [writeInto]
  omega

theorem mkChunk_length (mtu count : Nat) (data : List Complex32) :
    (mkChunk mtu count data).length = min count mtu := by
  simp [mkChunk, writeInto_length]

/-- The worker thread returns exactly the handle it was given. -/
theorem runWorker_rx_stream (env : Env) (mtu : Nat) (sr : Rat) (h fuel : Nat)
    (o : WorkerOutcome) (hrun : runWorker env mtu sr h fuel = some o) :
    o.retval.rx_stream = h := by
  unfold runWorker at hrun
  cases hloop : runWorkerLoop env mtu sr fuel 0 with
  | none => rw [hloop] at hrun; exact absurd hrun (by simp)
  | some trip =>
    obtain ⟨tr, s, ex⟩ := trip
    rw [hloop] at hrun
    simp only [Option.some.injEq] at hrun
    rw [← hrun]

/-- One call from a valid state never panics and preserves the handle. -/
theorem stepCall_safe (sr : Rat) (hdl : Nat) (c : Call) (st : SoapySdrRxState)
    (hst : handleOf st = some hdl) :
    stepCall sr c st ≠ CallOutcome.panic ∧
    ∀ st2 ret sp, stepCall sr c st = CallOutcome.done st2 ret sp →
      handleOf st2 = some hdl := by
  cases c with
  | activateCall env =>
    cases st with
    | Invalid => simp [handleOf] at hst
    | Active x =>
      simp only [handleOf, Option.some.injEq] at hst
      refine ⟨by simp [stepCall, SoapySdrRx.activate], ?_⟩
      intro st2 ret sp hdone
      simp only [stepCall, SoapySdrRx.activate, CallOutcome.done.injEq] at hdone
      rw [← hdone.1]
      simpa [handleOf] using hst
    | Idle rx_stream =>
      simp only [handleOf, Option.some.injEq] at hst
      subst hst
      constructor
      · simp only [stepCall, SoapySdrRx.activate]
        cases env.mtuResult <;> cases env.activateResult <;> simp
      · intro st2 ret sp hdone
        simp only [stepCall, SoapySdrRx.activate] at hdone
        cases hm : env.mtuResult with
        | error err =>
          rw [hm] at hdone
          simp only [CallOutcome.done.injEq] at hdone
          rw [← hdone.1]; rfl
        | ok mtu =>
          rw [hm] at hdone
          cases ha : env.activateResult with
          | error err =>
            rw [ha] at hdone
            simp only [CallOutcome.done.injEq] at hdone
            rw [← hdone.1]; rfl
          | ok u =>
            rw [ha] at hdone
            simp only [CallOutcome.done.injEq] at hdone
            rw [← hdone.1]; rfl
  | deactivateCall fuel =>
    cases st with
    | Invalid => simp [handleOf] at hst
    | Idle rx_stream =>
      simp only [handleOf, Option.some.injEq] at hst
      subst hst
      refine ⟨by simp [stepCall, SoapySdrRx.deactivate], ?_⟩
      intro st2 ret sp hdone
      simp only [stepCall, SoapySdrRx.deactivate, CallOutcome.done.injEq] at hdone
      rw [← hdone.1]; rfl
    | Active a =>
      simp only [handleOf, Option.some.injEq] at hst
      constructor
      · simp only [stepCall, SoapySdrRx.deactivate]
        cases hw : runWorker a.env a.mtu sr a.rx_stream fuel <;> simp
      · intro st2 ret sp hdone
        simp only [stepCall, SoapySdrRx.deactivate] at hdone
        cases hw : runWorker a.env a.mtu sr a.rx_stream fuel with
        | none => rw [hw] at hdone; exact absurd hdone (by simp)
        | some o =>
          rw [hw] at hdone
          simp only [CallOutcome.done.injEq] at hdone
          rw [← hdone.1]
          simp only [handleOf, Option.some.injEq]
          rw [runWorker_rx_stream a.env a.mtu sr a.rx_stream fuel o hw]
          exact hst

/-- A whole call history from a valid state never panics and preserves
the handle. -/
theorem runCalls_safe (sr : Rat) (hdl : Nat) :
    ∀ (calls : List Call) (st : SoapySdrRxState), handleOf st = some hdl →
      runCalls sr calls st ≠ RunResult.panicked ∧
      ∀ st2, runCalls sr calls st = RunResult.ok st2 → handleOf st2 = some hdl := by
  intro calls
  induction calls with
  | nil =>
    intro st hst
    refine ⟨by simp [runCalls], ?_⟩
    intro st2 hok
    simp only [runCalls, RunResult.ok.injEq] at hok
    rw [← hok]; exact hst
  | cons c cs ih =>
    intro st hst
    have hstep := stepCall_safe sr hdl c st hst
    simp only [runCalls]
    cases hout : stepCall sr c st with
    | panic => exact absurd hout hstep.1
    | blocked => exact ⟨by simp, by simp⟩
    | done st2 ret sp => exact ih st2 (hstep.2 st2 ret sp hout)

/-- Combined loop invariant: events belong to iterations at or after the
start index, the loop itself never calls the device deactivate, the
cancellation signal is checked at most once per iteration and
immediately before that iteration's read, once cancellation is raised at
every index from `k` on no read with index `≥ k` is issued, and every
message the sink accepted is a truncated read tagged with the sample
rate. -/
theorem runWorkerLoop_inv (env : Env) (mtu : Nat) (sr : Rat) :
    ∀ (fuel i : Nat) (tr : List Event) (s : List Signal) (ex : LoopExit),
      runWorkerLoop env mtu sr fuel i = some (tr, s, ex) →
      (∀ ev ∈ tr, ∀ j, evIndex ev = some j → i ≤ j) ∧
      Event.deactivateCall ∉ tr ∧
      (∀ j, tr.count (Event.checkCancel j) ≤ 1) ∧
      (∀ j, Event.readCall j ∈ tr →
        ∃ pre post, tr = pre ++ Event.checkCancel j :: Event.readCall j :: post) ∧
      (∀ k, (∀ j, k ≤ j → env.cancelObserved j = true) →
        ∀ j, Event.readCall j ∈ tr → j < k) ∧
      (∀ b ∈ s, ∃ j count data, env.reads j = ReadResult.ok count data ∧
        b = Signal.Samples sr (mkChunk mtu count data)) := by
  intro fuel
  induction fuel with
  | zero => intro i tr s ex h; simp [runWorkerLoop] at h
  | succ f ih =>
    intro i tr s ex h
    rw [runWorkerLoop] at h
    by_cases hc : env.cancelObserved i
    · rw [if_pos hc] at h
      simp only [Option.some.injEq, Prod.mk.injEq] at h
      obtain ⟨h1, h2, h3⟩ := h
      subst h1; subst h2; subst h3
      refine ⟨?_, by simp, ?_, by simp, by simp, by simp⟩
      · intro ev hev j hj
        simp only [List.mem_cons, List.not_mem_nil, or_false] at hev
        subst hev
        simp only [evIndex, Option.some.injEq] at hj
        omega
      · intro j
        by_cases hji : j = i
        · subst hji; simp
        · simp [hji]
    · rw [if_neg hc] at h
      cases hr : env.reads i with
      | err e =>
        rw [hr] at h
        simp only [Option.some.injEq, Prod.mk.injEq] at h
        obtain ⟨h1, h2, h3⟩ := h
        subst h1; subst h2; subst h3
        refine ⟨?_, by simp, ?_, ?_, ?_, by simp⟩
        · intro ev hev j hj
          simp only [List.mem_cons, List.not_mem_nil, or_false] at hev
          rcases hev with hev | hev <;> subst hev <;>
            simp only [evIndex, Option.some.injEq] at hj <;> omega
        · intro j
          by_cases hji : j = i
          · subst hji; simp
          · simp [hji]
        · intro j hj
          simp only [List.mem_cons, List.not_mem_nil, or_false] at hj
          rcases hj with hj | hj
          · exact absurd hj (by simp)
          · obtain rfl : j = i := by
              simpa [Event.readCall.injEq] using hj
            exact ⟨[], [], rfl⟩
        · intro k hk j hj
          simp only [List.mem_cons, List.not_mem_nil, or_false] at hj
          rcases hj with hj | hj
          · exact absurd hj (by simp)
          · obtain rfl : j = i := by
              simpa [Event.readCall.injEq] using hj
            by_contra hlt
            exact hc (hk _ (by omega))
      | ok count data =>
        rw [hr] at h
        by_cases hs : env.sinkClosed i
        · simp only [if_pos hs, Option.some.injEq, Prod.mk.injEq] at h
          obtain ⟨h1, h2, h3⟩ := h
          subst h1; subst h2; subst h3
          refine ⟨?_, by simp, ?_, ?_, ?_, by simp⟩
          · intro ev hev j hj
            simp only [List.mem_cons, List.not_mem_nil, or_false] at hev
            rcases hev with hev | hev | hev <;> subst hev <;>
              simp only [evIndex, Option.some.injEq] at hj <;> omega
          · intro j
            by_cases hji : j = i
            · subst hji; simp
            · simp [hji]
          · intro j hj
            simp only [List.mem_cons, List.not_mem_nil, or_false] at hj
            rcases hj with hj | hj | hj
            · exact absurd hj (by simp)
            · obtain rfl : j = i := by
                simpa [Event.readCall.injEq] using hj
              exact ⟨[], [Event.sendCall j], rfl⟩
            · exact absurd hj (by simp)
          · intro k hk j hj
            simp only [List.mem_cons, List.not_mem_nil, or_false] at hj
            rcases hj with hj | hj | hj
            · exact absurd hj (by simp)
            · obtain rfl : j = i := by
                simpa [Event.readCall.injEq] using hj
              by_contra hlt
              exact hc (hk _ (by omega))
            · exact absurd hj (by simp)
        · simp only [if_neg hs] at h
          cases hrec : runWorkerLoop env mtu sr f (i + 1) with
          | none => rw [hrec] at h; simp at h
          | some trip =>
            obtain ⟨tr2, s2, ex2⟩ := trip
            rw [hrec] at h
            simp only [Option.some.injEq, Prod.mk.injEq] at h
            obtain ⟨h1, h2, h3⟩ := h
            subst h1; subst h2; subst h3
            obtain ⟨ihIdx, ihDeact, ihCount, ihDecomp, ihCancel, ihSent⟩ :=
              ih (i + 1) tr2 s2 ex2 hrec
            refine ⟨?_, ?_, ?_, ?_, ?_, ?_⟩
            · intro ev hev j hj
              simp only [List.mem_cons] at hev
              rcases hev with hev | hev | hev | hev
              · subst hev; simp only [evIndex, Option.some.injEq] at hj; omega
              · subst hev; simp only [evIndex, Option.some.injEq] at hj; omega
              · subst hev; simp only [evIndex, Option.some.injEq] at hj; omega
              · have := ihIdx ev hev j hj; omega
            · simp only [List.mem_cons, not_or]
              exact ⟨by simp, by simp, by simp, ihDeact⟩
            · intro j
              by_cases hji : j = i
              · subst hji
                have hnotin : Event.checkCancel j ∉ tr2 := by
                  intro hmem
                  have := ihIdx _ hmem j rfl
                  omega
                rw [show (Event.checkCancel j :: Event.readCall j ::
                    Event.sendCall j :: tr2).count (Event.checkCancel j) =
                    tr2.count (Event.checkCancel j) + 1 from by
                  simp [List.count_cons_self, List.count_cons_of_ne]]
                rw [List.count_eq_zero_of_not_mem hnotin]
              · rw [show (Event.checkCancel i :: Event.readCall i ::
                    Event.sendCall i :: tr2).count (Event.checkCancel j) =
                    tr2.count (Event.checkCancel j) from by
                  simp [List.count_cons_of_ne, Ne.symm, hji]]
                exact ihCount j
            · intro j hj
              simp only [List.mem_cons] at hj
              rcases hj with hj | hj | hj | hj
              · exact absurd hj (by simp)
              · obtain rfl : j = i := by
                  simpa [Event.readCall.injEq] using hj
                exact ⟨[], Event.sendCall j :: tr2, rfl⟩
              · exact absurd hj (by simp)
              · obtain ⟨pre, post, hpp⟩ := ihDecomp j hj
                exact ⟨Event.checkCancel i :: Event.readCall i :: Event.sendCall i :: pre,
                  post, by simp [hpp]⟩
            · intro k hk j hj
              simp only [List.mem_cons] at hj
              rcases hj with hj | hj | hj | hj
              · exact absurd hj (by simp)
              · obtain rfl : j = i := by
                  simpa [Event.readCall.injEq] using hj
                by_contra hlt
                exact hc (hk _ (by omega))
              · exact absurd hj (by simp)
              · exact ihCancel k hk j hj
            · intro b hb
              simp only [List.mem_cons] at hb
              rcases hb with hb | hb
              · exact ⟨i, count, data, hr, hb⟩
              · exact ihSent b hb

/-- If the first `N` iterations (from index `s`) read successfully with
the sink open and no cancellation, and iteration `s + N` stops the loop
(cancellation raised or read error), the sink accepts exactly the `N`
truncated reads, in order. -/
theorem runWorkerLoop_exact_sent (env : Env) (mtu : Nat) (sr : Rat)
    (cnt : Nat → Nat) (dat : Nat → List Complex32) :
    ∀ (N s fuel : Nat),
      (∀ j, j < N → env.reads (s + j) = ReadResult.ok (cnt (s + j)) (dat (s + j))) →
      (∀ j, j < N → env.cancelObserved (s + j) = false) →
      (∀ j, j < N → env.sinkClosed (s + j) = false) →
      (env.cancelObserved (s + N) = true ∨
        (env.cancelObserved (s + N) = false ∧
          ∃ e, env.reads (s + N) = ReadResult.err e)) →
      N < fuel →
      ∃ tr ex, runWorkerLoop env mtu sr fuel s =
        some (tr, (List.range N).map
          (fun j => Signal.Samples sr (mkChunk mtu (cnt (s + j)) (dat (s + j)))), ex) := by
  intro N
  induction N with
  | zero =>
    intro s fuel _ _ _ hstop hfuel
    obtain ⟨f, rfl⟩ : ∃ f, fuel = f + 1 := ⟨fuel - 1, by omega⟩
    rw [runWorkerLoop]
    simp only [List.range_zero, List.map_nil]
    rcases hstop with hcs | ⟨hcs, e, he⟩
    · rw [if_pos (show env.cancelObserved s = true from hcs)]
      exact ⟨[Event.checkCancel s], LoopExit.cancelled, rfl⟩
    · rw [if_neg (show ¬env.cancelObserved s = true from by
        simp [show env.cancelObserved s = false from hcs])]
      rw [show env.reads s = ReadResult.err e from he]
      exact ⟨[Event.checkCancel s, Event.readCall s], LoopExit.readErr e, rfl⟩
  | succ n ihn =>
    intro s fuel hreads hnc hso hstop hfuel
    obtain ⟨f, rfl⟩ : ∃ f, fuel = f + 1 := ⟨fuel - 1, by omega⟩
    have h0r : env.reads s = ReadResult.ok (cnt s) (dat s) := by
      simpa using hreads 0 (by omega)
    have h0c : env.cancelObserved s = false := by
      simpa using hnc 0 (by omega)
    have h0s : env.sinkClosed s = false := by
      simpa using hso 0 (by omega)
    have hr2 : ∀ j, j < n →
        env.reads (s + 1 + j) = ReadResult.ok (cnt (s + 1 + j)) (dat (s + 1 + j)) := by
      intro j hj
      have e2 : s + 1 + j = s + (j + 1) := by omega
      rw [e2]
      exact hreads (j + 1) (by omega)
    have hc2 : ∀ j, j < n → env.cancelObserved (s + 1 + j) = false := by
      intro j hj
      have e2 : s + 1 + j = s + (j + 1) := by omega
      rw [e2]
      exact hnc (j + 1) (by omega)
    have hs2 : ∀ j, j < n → env.sinkClosed (s + 1 + j) = false := by
      intro j hj
      have e2 : s + 1 + j = s + (j + 1) := by omega
      rw [e2]
      exact hso (j + 1) (by omega)
    have hstop2 : env.cancelObserved (s + 1 + n) = true ∨
        (env.cancelObserved (s + 1 + n) = false ∧
          ∃ e, env.reads (s + 1 + n) = ReadResult.err e) := by
      have e2 : s + 1 + n = s + (n + 1) := by omega
      rw [e2]
      exact hstop
    obtain ⟨tr, ex, hloop⟩ := ihn (s + 1) f hr2 hc2 hs2 hstop2 (by omega)
    have hsent : Signal.Samples sr (mkChunk mtu (cnt s) (dat s)) ::
        (List.range n).map
          (fun j => Signal.Samples sr (mkChunk mtu (cnt (s + 1 + j)) (dat (s + 1 + j)))) =
        (List.range (n + 1)).map
          (fun j => Signal.Samples sr (mkChunk mtu (cnt (s + j)) (dat (s + j)))) := by
      rw [List.range_succ_eq_map, List.map_cons, List.map_map]
      congr 1
      apply List.map_congr_left
      intro a _
      show Signal.Samples sr (mkChunk mtu (cnt (s + 1 + a)) (dat (s + 1 + a))) =
        Signal.Samples sr (mkChunk mtu (cnt (s + (a + 1))) (dat (s + (a + 1))))
      rw [show s + 1 + a = s + (a + 1) from by omega]
    rw [runWorkerLoop]
    rw [if_neg (show ¬env.cancelObserved s = true from by simp [h0c])]
    rw [h0r]
    simp only [if_neg (show ¬env.sinkClosed s = true from by simp [h0s]), hloop]
    exact ⟨_, ex, by rw [← hsent]⟩

/-! ### Concrete oracles used by the witnesses -/

/-- The spec's test scenario: mtu 4, first read returns 4 samples, second
read returns 0 samples, third read errors with "timeout"; sink stays
open, cancellation is never observed, device deactivate succeeds. -/
def scenarioEnv : Env where
  mtuResult := Except.ok 4
  activateResult := Except.ok ()
  reads := fun i =>
    if i = 0 then ReadResult.ok 4 [⟨1, 0⟩, ⟨2, 0⟩, ⟨3, 0⟩, ⟨4, 0⟩]
    else if i = 1 then ReadResult.ok 0 []
    else ReadResult.err ⟨"timeout"⟩
  deactivateResult := Except.ok ()
  cancelObserved := fun _ => false
  sinkClosed := fun _ => false

/-- The worker run fixed by `scenarioEnv` with mtu 4 and handle 7. -/
def scenarioOutcome : WorkerOutcome where
  retval := ⟨7, Except.error ⟨"timeout"⟩⟩
  sent := [Signal.Samples 2000000 [⟨1, 0⟩, ⟨2, 0⟩, ⟨3, 0⟩, ⟨4, 0⟩],
           Signal.Samples 2000000 []]
  trace := [Event.checkCancel 0, Event.readCall 0, Event.sendCall 0,
            Event.checkCancel 1, Event.readCall 1, Event.sendCall 1,
            Event.checkCancel 2, Event.readCall 2, Event.deactivateCall]
  exit := LoopExit.readErr ⟨"timeout"⟩

/-- An oracle whose device fails the mtu query. -/
def mtuFailEnv : Env where
  mtuResult := Except.error ⟨"mtu failed"⟩
  activateResult := Except.ok ()
  reads := fun _ => ReadResult.err ⟨"unused"⟩
  deactivateResult := Except.ok ()
  cancelObserved := fun _ => true
  sinkClosed := fun _ => false

/-- Per-read count of the scenario device. -/
def scenarioCnt : Nat → Nat := fun i => if i = 0 then 4 else 0

/-- Per-read data of the scenario device. -/
def scenarioDat : Nat → List Complex32 := fun i =>
  if i = 0 then [⟨1, 0⟩, ⟨2, 0⟩, ⟨3, 0⟩, ⟨4, 0⟩] else []

/-- An oracle whose sink reports closed on the first send. -/
def sinkClosedEnv : Env where
  mtuResult := Except.ok 3
  activateResult := Except.ok ()
  reads := fun _ => ReadResult.ok 1 [⟨5, 6⟩]
  deactivateResult := Except.ok ()
  cancelObserved := fun _ => false
  sinkClosed := fun _ => true

/-- The worker run fixed by `sinkClosedEnv` with mtu 3 and handle 9. -/
def sinkClosedOutcome : WorkerOutcome where
  retval := ⟨9, Except.ok ()⟩
  sent := []
  trace := [Event.checkCancel 0, Event.readCall 0, Event.sendCall 0,
            Event.deactivateCall]
  exit := LoopExit.sinkClosed

/-- An oracle whose cancellation is already raised at the first check. -/
def cancelEnv : Env where
  mtuResult := Except.ok 2
  activateResult := Except.ok ()
  reads := fun _ => ReadResult.ok 0 []
  deactivateResult := Except.ok ()
  cancelObserved := fun _ => true
  sinkClosed := fun _ => false

/-- The worker run fixed by `cancelEnv` with mtu 2 and handle 3. -/
def cancelOutcome : WorkerOutcome where
  retval := ⟨3, Except.ok ()⟩
  sent := []
  trace := [Event.checkCancel 0, Event.deactivateCall]
  exit := LoopExit.cancelled

/-- An oracle whose device reports a count (5) larger than the mtu (2). -/
def overCountEnv : Env where
  mtuResult := Except.ok 2
  activateResult := Except.ok ()
  reads := fun i =>
    if i = 0 then ReadResult.ok 5 [⟨9, 9⟩] else ReadResult.err ⟨"stop"⟩
  deactivateResult := Except.ok ()
  cancelObserved := fun _ => false
  sinkClosed := fun _ => false

/-- The worker run fixed by `overCountEnv` with mtu 2 and handle 11. -/
def overCountOutcome : WorkerOutcome where
  retval := ⟨11, Except.error ⟨"stop"⟩⟩
  sent := [Signal.Samples 48000 [⟨9, 9⟩, ⟨0, 0⟩]]
  trace := [Event.checkCancel 0, Event.readCall 0, Event.sendCall 0,
            Event.checkCancel 1, Event.readCall 1, Event.deactivateCall]
  exit := LoopExit.readErr ⟨"stop"⟩

/-! ### Claims -/

/-- Claim C1: If, during `activate` called in the Idle state, the mtu query
or the device activate operation errors, `activate` returns that error,
the state is restored to Idle with the same handle, and no worker is
spawned; no exit path of `activate` leaves the state Invalid. -/
theorem c1_activate_failure_restores_idle (env : Env) (sr : Rat) (h : Nat) (e : SdrError)
    (hfail : env.mtuResult = Except.error e ∨
      ((∃ m, env.mtuResult = Except.ok m) ∧ env.activateResult = Except.error e)) :
    SoapySdrRx.activate env ⟨sr, SoapySdrRxState.Idle h⟩ =
      CallOutcome.done (SoapySdrRxState.Idle h) (Except.error e) false ∧
    ∀ (env2 : Env) (rx : SoapySdrRx),
      leavesInvalid (SoapySdrRx.activate env2 rx) = false := by
  constructor
  · rcases hfail with hm | ⟨⟨m, hm⟩, ha⟩
    · simp [SoapySdrRx.activate, hm]
    · simp [SoapySdrRx.activate, hm, ha]
  · intro env2 rx
    obtain ⟨sr2, st⟩ := rx
    cases st with
    | Invalid => rfl
    | Active x => rfl
    | Idle rs =>
      simp only [SoapySdrRx.activate]
      cases env2.mtuResult with
      | error err => rfl
      | ok mtu =>
        cases env2.activateResult with
        | error err => rfl
        | ok u => rfl

/-- Witness for C1 at a device whose mtu query fails. -/
theorem c1_witness :
    SoapySdrRx.activate mtuFailEnv ⟨2000000, SoapySdrRxState.Idle 7⟩ =
      CallOutcome.done (SoapySdrRxState.Idle 7) (Except.error ⟨"mtu failed"⟩) false ∧
    leavesInvalid (SoapySdrRx.activate mtuFailEnv ⟨2000000, SoapySdrRxState.Idle 7⟩) = false := by
  have h := c1_activate_failure_restores_idle mtuFailEnv 2000000 7 ⟨"mtu failed"⟩ (Or.inl rfl)
  exact ⟨h.1, h.2 mtuFailEnv ⟨2000000, SoapySdrRxState.Idle 7⟩⟩

/-- Claim C2: Across any sequence of `activate`/`deactivate` calls
(including failing ones), the device stream handle is never lost, never
duplicated and never changed: every state a completed history reaches
still holds exactly the original handle in its single owner slot. -/
theorem c2_handle_conservation (sr : Rat) (hdl : Nat) (calls : List Call)
    (st2 : SoapySdrRxState)
    (hrun : runCalls sr calls (SoapySdrRx.new hdl sr).state = RunResult.ok st2) :
    handleOf st2 = some hdl ∧ ownerCount st2 = 1 := by
  have h := (runCalls_safe sr hdl calls (SoapySdrRx.new hdl sr).state rfl).2 st2 hrun
  refine ⟨h, ?_⟩
  cases st2 with
  | Idle x => rfl
  | Active a => rfl
  | Invalid => simp [handleOf] at h

/-- Witness for C2 on the history activate-then-deactivate. -/
theorem c2_witness :
    handleOf (SoapySdrRxState.Idle 7) = some 7 ∧
    ownerCount (SoapySdrRxState.Idle 7) = 1 :=
  c2_handle_conservation 2000000 7
    [Call.activateCall scenarioEnv, Call.deactivateCall 10]
    (SoapySdrRxState.Idle 7) (by rfl)

/-- Claim C5: `activate` while Active is a successful no-op (state and its
single worker unchanged, nothing spawned), and `deactivate` while Idle
is a successful no-op. -/
theorem c5_repeated_calls_are_noops (env : Env) (fuel : Nat) (sr : Rat)
    (x : SoapySdrRxActive) (h : Nat) :
    SoapySdrRx.activate env ⟨sr, SoapySdrRxState.Active x⟩ =
      CallOutcome.done (SoapySdrRxState.Active x) (Except.ok ()) false ∧
    SoapySdrRx.deactivate fuel ⟨sr, SoapySdrRxState.Idle h⟩ =
      CallOutcome.done (SoapySdrRxState.Idle h) (Except.ok ()) false :=
  ⟨rfl, rfl⟩

/-- Claim C6: `deactivate` while Active reclaims the handle from the
worker's outcome, moves to Idle holding that handle, and returns the
worker's terminal result — unconditionally, error or not. -/
theorem c6_deactivate_reclaims_handle (sr : Rat) (a : SoapySdrRxActive) (fuel : Nat)
    (o : WorkerOutcome) (hjoin : runWorker a.env a.mtu sr a.rx_stream fuel = some o) :
    SoapySdrRx.deactivate fuel ⟨sr, SoapySdrRxState.Active a⟩ =
      CallOutcome.done (SoapySdrRxState.Idle a.rx_stream) o.retval.result false ∧
    o.retval.rx_stream = a.rx_stream := by
  have hx := runWorker_rx_stream a.env a.mtu sr a.rx_stream fuel o hjoin
  refine ⟨?_, hx⟩
  simp only [SoapySdrRx.deactivate, hjoin, hx]

/-- Witness for C6: the scenario run ends with the handle back in Idle
and the timeout error returned. -/
theorem c6_witness :
    SoapySdrRx.deactivate 10 ⟨2000000, SoapySdrRxState.Active ⟨scenarioEnv, 4, 7⟩⟩ =
      CallOutcome.done (SoapySdrRxState.Idle 7) (Except.error ⟨"timeout"⟩) false :=
  (c6_deactivate_reclaims_handle 2000000 ⟨scenarioEnv, 4, 7⟩ 10 scenarioOutcome (by rfl)).1

/-- Claim C8: Any call observing Invalid panics rather than returning a
recoverable value, and no call history starting from a freshly
constructed block ever reaches that branch. -/
theorem c8_invalid_state_panics (sr : Rat) (env : Env) (fuel hdl : Nat)
    (calls : List Call) :
    SoapySdrRx.activate env ⟨sr, SoapySdrRxState.Invalid⟩ = CallOutcome.panic ∧
    SoapySdrRx.deactivate fuel ⟨sr, SoapySdrRxState.Invalid⟩ = CallOutcome.panic ∧
    (runCalls sr calls (SoapySdrRx.new hdl sr).state).isPanicked = false := by
  refine ⟨rfl, rfl, ?_⟩
  have h := (runCalls_safe sr hdl calls (SoapySdrRx.new hdl sr).state rfl).1
  cases hr : runCalls sr calls (SoapySdrRx.new hdl sr).state with
  | ok st => rfl
  | panicked => exact absurd hr h
  | blocked => rfl

/-- Claim C3: On every exit of the worker loop the device deactivate
operation is called exactly once; a read error recorded earlier takes
precedence over a deactivate error, and on the other exits the
deactivate result is the worker's terminal result. -/
theorem c3_deactivate_once_error_precedence (env : Env) (mtu : Nat) (sr : Rat)
    (hdl fuel : Nat) (o : WorkerOutcome)
    (hrun : runWorker env mtu sr hdl fuel = some o) :
    o.trace.count Event.deactivateCall = 1 ∧
    (∀ e, o.exit = LoopExit.readErr e → o.retval.result = Except.error e) ∧
    ((o.exit = LoopExit.cancelled ∨ o.exit = LoopExit.sinkClosed) →
      o.retval.result = env.deactivateResult) := by
  unfold runWorker at hrun
  cases hloop : runWorkerLoop env mtu sr fuel 0 with
  | none => rw [hloop] at hrun; exact absurd hrun (by simp)
  | some trip =>
    obtain ⟨tr, s, ex⟩ := trip
    rw [hloop] at hrun
    simp only [Option.some.injEq] at hrun
    obtain ⟨-, hdeact, -, -, -, -⟩ := runWorkerLoop_inv env mtu sr fuel 0 tr s ex hloop
    have htrace : o.trace = tr ++ [Event.deactivateCall] := by rw [← hrun]
    have hexit : o.exit = ex := by rw [← hrun]
    refine ⟨?_, ?_, ?_⟩
    · rw [htrace, List.count_append, List.count_eq_zero_of_not_mem hdeact]
      rfl
    · intro e hex
      rw [hexit] at hex
      subst hex
      cases denv : env.deactivateResult with
      | error err =>
        rw [denv] at hrun
        rw [← hrun]
      | ok u =>
        rw [denv] at hrun
        rw [← hrun]
    · intro hor
      rcases hor with hor | hor
      · rw [hexit] at hor
        subst hor
        cases denv : env.deactivateResult with
        | error err =>
          rw [denv] at hrun
          rw [← hrun]
        | ok u =>
          rw [denv] at hrun
          cases u
          rw [← hrun]
      · rw [hexit] at hor
        subst hor
        cases denv : env.deactivateResult with
        | error err =>
          rw [denv] at hrun
          rw [← hrun]
        | ok u =>
          rw [denv] at hrun
          cases u
          rw [← hrun]

/-- Witness for C3 on the spec scenario (read error, deactivate Ok). -/
theorem c3_witness :
    scenarioOutcome.trace.count Event.deactivateCall = 1 ∧
    scenarioOutcome.retval.result = Except.error ⟨"timeout"⟩ := by
  have h := c3_deactivate_once_error_precedence scenarioEnv 4 2000000 7 10
    scenarioOutcome (by rfl)
  exact ⟨h.1, h.2.1 ⟨"timeout"⟩ rfl⟩

/-- Claim C4: A device yielding `N` readable chunks before erroring or
being cancelled delivers exactly `N` batches to the sink, in read order,
each the buffer truncated to that read's count and tagged with the
configured sample rate. -/
theorem c4_sink_receives_batches_in_order (env : Env) (mtu N fuel : Nat) (sr : Rat)
    (hdl : Nat) (cnt : Nat → Nat) (dat : Nat → List Complex32)
    (hreads : ∀ j, j < N → env.reads j = ReadResult.ok (cnt j) (dat j))
    (hnocancel : ∀ j, j < N → env.cancelObserved j = false)
    (hopen : ∀ j, j < N → env.sinkClosed j = false)
    (hstop : env.cancelObserved N = true ∨
      (env.cancelObserved N = false ∧ ∃ e, env.reads N = ReadResult.err e))
    (hfuel : N < fuel) :
    ∃ o, runWorker env mtu sr hdl fuel = some o ∧
      o.sent = (List.range N).map
        (fun j => Signal.Samples sr (mkChunk mtu (cnt j) (dat j))) := by
  obtain ⟨tr, ex, hloop⟩ := runWorkerLoop_exact_sent env mtu sr cnt dat N 0 fuel
    (by intro j hj; simpa using hreads j hj)
    (by intro j hj; simpa using hnocancel j hj)
    (by intro j hj; simpa using hopen j hj)
    (by simpa using hstop) hfuel
  cases hw : runWorker env mtu sr hdl fuel with
  | none =>
    unfold runWorker at hw
    rw [hloop] at hw
    exact absurd hw (by simp)
  | some o =>
    refine ⟨o, rfl, ?_⟩
    unfold runWorker at hw
    rw [hloop] at hw
    simp only [Option.some.injEq] at hw
    have hsent : o.sent = (List.range N).map
        (fun j => Signal.Samples sr (mkChunk mtu (cnt (0 + j)) (dat (0 + j)))) := by
      rw [← hw]
    rw [hsent]
    apply List.map_congr_left
    intro a _
    rw [Nat.zero_add]

/-- Witness for C4 on the spec scenario: two batches, sizes 4 and 0. -/
theorem c4_witness :
    ∃ o, runWorker scenarioEnv 4 2000000 7 10 = some o ∧
      o.sent = [Signal.Samples 2000000 [⟨1, 0⟩, ⟨2, 0⟩, ⟨3, 0⟩, ⟨4, 0⟩],
        Signal.Samples 2000000 []] := by
  obtain ⟨o, h1, h2⟩ := c4_sink_receives_batches_in_order scenarioEnv 4 2 10 2000000 7
    scenarioCnt scenarioDat (by decide) (by decide) (by decide)
    (Or.inr ⟨rfl, ⟨⟨"timeout"⟩, rfl⟩⟩) (by omega)
  refine ⟨o, h1, ?_⟩
  rw [h2]
  rfl

/-- Claim C7: A sink-closed send makes the loop exit without recording an
error: the terminal result is then exactly the device deactivate result,
and Ok whenever the device deactivate succeeds. -/
theorem c7_sink_closed_is_not_an_error (env : Env) (mtu : Nat) (sr : Rat)
    (hdl fuel : Nat) (o : WorkerOutcome)
    (hrun : runWorker env mtu sr hdl fuel = some o)
    (hex : o.exit = LoopExit.sinkClosed) :
    o.retval.result = env.deactivateResult ∧
    (env.deactivateResult = Except.ok () → o.retval.result = Except.ok ()) := by
  unfold runWorker at hrun
  cases hloop : runWorkerLoop env mtu sr fuel 0 with
  | none => rw [hloop] at hrun; exact absurd hrun (by simp)
  | some trip =>
    obtain ⟨tr, s, ex⟩ := trip
    rw [hloop] at hrun
    simp only [Option.some.injEq] at hrun
    have hexit : o.exit = ex := by rw [← hrun]
    rw [hexit] at hex
    subst hex
    have hres : o.retval.result = env.deactivateResult := by
      cases denv : env.deactivateResult with
      | error err =>
        rw [denv] at hrun
        rw [← hrun]
      | ok u =>
        rw [denv] at hrun
        cases u
        rw [← hrun]
    exact ⟨hres, fun hok => by rw [hres, hok]⟩

/-- Witness for C7: sink closes on the first send, worker result is Ok. -/
theorem c7_witness :
    sinkClosedOutcome.retval.result = sinkClosedEnv.deactivateResult :=
  (c7_sink_closed_is_not_an_error sinkClosedEnv 3 48000 9 1 sinkClosedOutcome
    (by rfl) (by rfl)).1

/-- Claim C9: Cancellation is cooperative: the worker checks the signal at
most once per iteration and always immediately before that iteration's
read, once cancellation is raised from index `k` on no read with index
`≥ k` starts, and `deactivate` on Active returns only by joining the
finished worker's outcome. -/
theorem c9_cooperative_cancellation (env : Env) (mtu : Nat) (sr : Rat)
    (hdl fuel : Nat) (o : WorkerOutcome)
    (hrun : runWorker env mtu sr hdl fuel = some o) :
    (∀ i, o.trace.count (Event.checkCancel i) ≤ 1) ∧
    (∀ i, Event.readCall i ∈ o.trace →
      ∃ pre post, o.trace = pre ++ Event.checkCancel i :: Event.readCall i :: post) ∧
    (∀ k, (∀ j, k ≤ j → env.cancelObserved j = true) →
      ∀ i, Event.readCall i ∈ o.trace → i < k) ∧
    (∀ (sr2 : Rat) (a : SoapySdrRxActive) (st : SoapySdrRxState)
      (ret : Except SdrError Unit) (sp : Bool),
      SoapySdrRx.deactivate fuel ⟨sr2, SoapySdrRxState.Active a⟩ =
        CallOutcome.done st ret sp →
      ∃ o2, runWorker a.env a.mtu sr2 a.rx_stream fuel = some o2 ∧
        ret = o2.retval.result ∧ st = SoapySdrRxState.Idle o2.retval.rx_stream) := by
  unfold runWorker at hrun
  cases hloop : runWorkerLoop env mtu sr fuel 0 with
  | none => rw [hloop] at hrun; exact absurd hrun (by simp)
  | some trip =>
    obtain ⟨tr, s, ex⟩ := trip
    rw [hloop] at hrun
    simp only [Option.some.injEq] at hrun
    obtain ⟨-, -, hcount, hdecomp, hcancel, -⟩ :=
      runWorkerLoop_inv env mtu sr fuel 0 tr s ex hloop
    have htrace : o.trace = tr ++ [Event.deactivateCall] := by rw [← hrun]
    refine ⟨?_, ?_, ?_, ?_⟩
    · intro i
      rw [htrace, List.count_append]
      have hz : ([Event.deactivateCall] : List Event).count (Event.checkCancel i) = 0 := by
        simp
      rw [hz]
      simpa using hcount i
    · intro i hi
      rw [htrace] at hi
      rw [List.mem_append] at hi
      rcases hi with hi | hi
      · obtain ⟨pre, post, hpp⟩ := hdecomp i hi
        refine ⟨pre, post ++ [Event.deactivateCall], ?_⟩
        rw [htrace, hpp]
        simp
      · exact absurd hi (by simp)
    · intro k hk i hi
      rw [htrace, List.mem_append] at hi
      rcases hi with hi | hi
      · exact hcancel k hk i hi
      · exact absurd hi (by simp)
    · intro sr2 a st ret sp hdone
      simp only [SoapySdrRx.deactivate] at hdone
      cases hw : runWorker a.env a.mtu sr2 a.rx_stream fuel with
      | none => rw [hw] at hdone; exact absurd hdone (by simp)
      | some o2 =>
        rw [hw] at hdone
        simp only [CallOutcome.done.injEq] at hdone
        exact ⟨o2, rfl, hdone.2.1.symm, hdone.1.symm⟩

/-- Witness for C9: with cancellation raised from the start the trace
checks the signal once. -/
theorem c9_witness : cancelOutcome.trace.count (Event.checkCancel 0) ≤ 1 :=
  (c9_cooperative_cancellation cancelEnv 2 48000 3 1 cancelOutcome (by rfl)).1 0

/-- Claim C10: Every batch the worker sends is a truncated read whose
length is `min count mtu`, hence never exceeds the mtu queried during
`activate`, even if the device reports a count larger than the mtu. -/
theorem c10_batch_length_bounded_by_mtu (env : Env) (mtu : Nat) (sr : Rat)
    (hdl fuel : Nat) (o : WorkerOutcome)
    (hrun : runWorker env mtu sr hdl fuel = some o) :
    ∀ b ∈ o.sent, ∃ i count data,
      env.reads i = ReadResult.ok count data ∧
      b = Signal.Samples sr (mkChunk mtu count data) ∧
      (mkChunk mtu count data).length = min count mtu ∧
      (mkChunk mtu count data).length ≤ mtu := by
  unfold runWorker at hrun
  cases hloop : runWorkerLoop env mtu sr fuel 0 with
  | none => rw [hloop] at hrun; exact absurd hrun (by simp)
  | some trip =>
    obtain ⟨tr, s, ex⟩ := trip
    rw [hloop] at hrun
    simp only [Option.some.injEq] at hrun
    obtain ⟨-, -, -, -, -, hsent⟩ := runWorkerLoop_inv env mtu sr fuel 0 tr s ex hloop
    have hos : o.sent = s := by rw [← hrun]
    intro b hb
    rw [hos] at hb
    obtain ⟨i, count, data, hr, hbeq⟩ := hsent b hb
    exact ⟨i, count, data, hr, hbeq, mkChunk_length mtu count data,
      by rw [mkChunk_length]; omega⟩

/-- Witness for C10: a device reporting count 5 against mtu 2 still
yields a batch of length 2. -/
theorem c10_witness : ∃ i count data,
    overCountEnv.reads i = ReadResult.ok count data ∧
    Signal.Samples 48000 [⟨9, 9⟩, ⟨0, 0⟩] = Signal.Samples 48000 (mkChunk 2 count data) ∧
    (mkChunk 2 count data).length = min count 2 ∧
    (mkChunk 2 count data).length ≤ 2 :=
  c10_batch_length_bounded_by_mtu overCountEnv 2 48000 11 3 overCountOutcome (by rfl)
    (Signal.Samples 48000 [⟨9, 9⟩, ⟨0, 0⟩]) (List.mem_cons_self _ _)

end RadioRust
